import Mathlib

/-!
Verification development for a triangular-arbitrage engine for the Bybit
spot exchange.  The Rust source is shallowly embedded: prices, sizes and
amounts are modelled as exact rationals (the floating-point arithmetic of
the source performs the same field operations up to rounding; all claims
checked here concern control flow and algebraic structure, not rounding),
strings stay strings, fallible operations return Option, and the effectful
executor loops are modelled as explicit recursion over oracles for the
balance queries and order outcomes.
-/

/-- `models.rs MarketPair`: one spot trading pair with top-of-book state. -/
structure MarketPair where
  base : String
  quote : String
  symbol : String
  price : ℚ
  bid_price : ℚ
  ask_price : ℚ
  bid_size : ℚ
  ask_size : ℚ
  volume_24h : ℚ
  volume_24h_usd : ℚ
  spread_percent : ℚ
  min_qty : ℚ
  qty_step : ℚ
  min_notional : ℚ
  is_active : Bool
  is_liquid : Bool
deriving Repr, DecidableEq, Inhabited

/-- `pairs.rs TrianglePairs` (the revision consumed by `arbitrage.rs`):
a three-leg cycle with its pairs and currency path. -/
structure TrianglePairs where
  base_currency : String
  pair1 : MarketPair
  pair2 : MarketPair
  pair3 : MarketPair
  path : List String
deriving Repr, DecidableEq, Inhabited

/-- `models.rs ArbitrageOpportunity` (timestamp omitted: wall-clock only). -/
structure ArbitrageOpportunity where
  path : List String
  pairs : List String
  prices : List ℚ
  estimated_profit_pct : ℚ
  estimated_profit_usd : ℚ
deriving Repr, DecidableEq, Inhabited

/-- `arbitrage.rs ArbitrageEngine` configuration fields (the opportunity
vector is threaded explicitly through the scan functions). -/
structure ArbitrageEngine where
  profit_threshold : ℚ
  max_scan_count : ℕ
  trading_fee_rate : ℚ
deriving Repr, DecidableEq

/-- `config.rs MIN_PROFIT_THRESHOLD` (0.05). -/
def MIN_PROFIT_THRESHOLD : ℚ := 1/20

/-- `config.rs MIN_VOLUME_24H_USD` (10000.0). -/
def MIN_VOLUME_24H_USD : ℚ := 10000

/-- `config.rs MIN_BID_SIZE_USD` (100.0). -/
def MIN_BID_SIZE_USD : ℚ := 100

/-- `config.rs MIN_ASK_SIZE_USD` (100.0). -/
def MIN_ASK_SIZE_USD : ℚ := 100

/-- `config.rs MAX_SPREAD_PERCENT` (1.0). -/
def MAX_SPREAD_PERCENT : ℚ := 1

/-- `config.rs MIN_TRADE_AMOUNT_USD` (10.0). -/
def MIN_TRADE_AMOUNT_USD : ℚ := 10

/-- The fee rate installed by `ArbitrageEngine::new` (0.001). -/
def default_fee_rate : ℚ := 1/1000

/-- One leg of `calculate_arbitrage_profit` (arbitrage.rs lines 241-253):
returns (amount_after_trade, effective_price, is_sell).  When the pair
base equals the currency currently held the source computes
`current_amount / bid_price`; otherwise `current_amount * ask_price`. -/
def leg_trade (pair : MarketPair) (from_currency : String) (x : ℚ) : ℚ × ℚ × Bool :=
  if pair.base = from_currency then
    (x / pair.bid_price, pair.bid_price, true)
  else
    (x * pair.ask_price, pair.ask_price, false)

/-- The three legs simulated by `calculate_arbitrage_profit`, paired with
the currency held entering each leg (`path[i]`). -/
def triangle_legs (tri : TrianglePairs) : List (MarketPair × String) :=
  [(tri.pair1, tri.path.getD 0 ""), (tri.pair2, tri.path.getD 1 ""), (tri.pair3, tri.path.getD 2 "")]

/-- The simulation loop of `calculate_arbitrage_profit` (lines 234-280):
carries the amount through each leg, applying the trading fee after each
trade, and records the effective price of every leg. -/
def simulate_legs (fee : ℚ) : List (MarketPair × String) → ℚ → ℚ × List ℚ
  | [], x => (x, [])
  | (pair, fromC) :: rest, x =>
    let step := leg_trade pair fromC x
    let res := simulate_legs fee rest (step.1 * (1 - fee))
    (res.1, step.2.1 :: res.2)

/-- `(initial_amount * 0.1).min(100.0).max(1.0)` (line 230). -/
def test_amount_of (initial_amount : ℚ) : ℚ :=
  max (min (initial_amount * (1/10)) 100) 1

/-- The final amount after the three simulated legs. -/
def final_amount (fee : ℚ) (tri : TrianglePairs) (initial_amount : ℚ) : ℚ :=
  (simulate_legs fee (triangle_legs tri) (test_amount_of initial_amount)).1

/-- The profit percentage computed at lines 283-284. -/
def profit_pct (fee : ℚ) (tri : TrianglePairs) (initial_amount : ℚ) : ℚ :=
  (final_amount fee tri initial_amount - test_amount_of initial_amount)
    / test_amount_of initial_amount * 100

/-- `arbitrage.rs calculate_arbitrage_profit` (lines 217-311).  The
`is_finite` conjunct of the source filter is automatic in the rational
model: the floating-point non-finite cases arise only from zero prices,
which the pair pipeline filters out before any triangle is built. -/
def calculate_arbitrage_profit (fee : ℚ) (tri : TrianglePairs) (initial_amount : ℚ) :
    Option ArbitrageOpportunity :=
  let t := test_amount_of initial_amount
  let sim := simulate_legs fee (triangle_legs tri) t
  let profit_amount := sim.1 - t
  let pct := profit_amount / t * 100
  let est_usd :=
    if tri.base_currency = "USDT" ∨ tri.base_currency = "USDC" then
      profit_amount * (initial_amount / t)
    else
      profit_amount * (1/2) * (initial_amount / t)
  if -50 < pct then
    some { path := tri.path,
           pairs := [tri.pair1.symbol, tri.pair2.symbol, tri.pair3.symbol],
           prices := sim.2,
           estimated_profit_pct := pct,
           estimated_profit_usd := est_usd }
  else none

/-- Modelled from the spec: `PairManager::get_pair_by_symbol`, called by
the scanner but absent from the src revision of pairs.rs (spec section 4.2:
`get(symbol) -> Option<&Quote>`, a map lookup by symbol). -/
def get_pair_by_symbol (pairs : List MarketPair) (symbol : String) : Option MarketPair :=
  pairs.find? (fun p => p.symbol = symbol)

/-- The per-pair body of `is_triangle_liquid_enough` (lines 179-209):
volume, spread, top-of-book size and liquidity-flag checks. -/
def pair_liquid_check (min_trade_size_usd : ℚ) (p : MarketPair) : Bool :=
  decide (MIN_VOLUME_24H_USD ≤ p.volume_24h_usd) &&
  decide (p.spread_percent ≤ MAX_SPREAD_PERCENT) &&
  decide (min_trade_size_usd ≤ p.bid_size * p.bid_price) &&
  decide (min_trade_size_usd ≤ p.ask_size * p.ask_price) &&
  p.is_liquid

/-- `arbitrage.rs is_triangle_liquid_enough` (lines 165-214). -/
def is_triangle_liquid_enough (pairs : List MarketPair) (tri : TrianglePairs)
    (t_amount : ℚ) : Bool :=
  match get_pair_by_symbol pairs tri.pair1.symbol,
        get_pair_by_symbol pairs tri.pair2.symbol,
        get_pair_by_symbol pairs tri.pair3.symbol with
  | some p1, some p2, some p3 =>
    let m := max t_amount MIN_TRADE_AMOUNT_USD
    pair_liquid_check m p1 && pair_liquid_check m p2 && pair_liquid_check m p3
  | _, _, _ => false

/-- The body of the triangle loop of `scan_for_base_currency`
(lines 141-158): skip illiquid triangles, compute the profit, and push
the opportunity only when it reaches the engine profit threshold. -/
def scan_step (eng : ArbitrageEngine) (pairs : List MarketPair) (t_amount : ℚ)
    (opps : List ArbitrageOpportunity) (tri : TrianglePairs) : List ArbitrageOpportunity :=
  if is_triangle_liquid_enough pairs tri t_amount = false then opps
  else
    match calculate_arbitrage_profit eng.trading_fee_rate tri t_amount with
    | some opp =>
      if eng.profit_threshold ≤ opp.estimated_profit_pct then opps ++ [opp] else opps
    | none => opps

/-- `arbitrage.rs scan_for_base_currency` (lines 132-162): iterate over at
most `max_scan_count` triangles, collecting the pushed opportunities. -/
def scan_for_base_currency (eng : ArbitrageEngine) (pairs : List MarketPair)
    (triangles : List TrianglePairs) (t_amount : ℚ) : List ArbitrageOpportunity :=
  (triangles.take eng.max_scan_count).foldl (scan_step eng pairs t_amount) []

/-- A pair with realistic BTCUSDT top-of-book prices. -/
def btcusdt_pair : MarketPair :=
  { base := "BTC", quote := "USDT", symbol := "BTCUSDT", price := 50000,
    bid_price := 50000, ask_price := 50001, bid_size := 1, ask_size := 1,
    volume_24h := 1000, volume_24h_usd := 50000000, spread_percent := 1/500,
    min_qty := 0, qty_step := 0, min_notional := 0,
    is_active := true, is_liquid := true }

theorem calc_profit_eq_some_iff (fee : ℚ) (tri : TrianglePairs) (amt : ℚ)
    (opp : ArbitrageOpportunity) :
    calculate_arbitrage_profit fee tri amt = some opp ↔
      (-50 < profit_pct fee tri amt ∧
        opp = { path := tri.path,
                pairs := [tri.pair1.symbol, tri.pair2.symbol, tri.pair3.symbol],
                prices := (simulate_legs fee (triangle_legs tri) (test_amount_of amt)).2,
                estimated_profit_pct := profit_pct fee tri amt,
                estimated_profit_usd :=
                  if tri.base_currency = "USDT" ∨ tri.base_currency = "USDC" then
                    (final_amount fee tri amt - test_amount_of amt) * (amt / test_amount_of amt)
                  else
                    (final_amount fee tri amt - test_amount_of amt) * (1/2) * (amt / test_amount_of amt) }) := by
  by_cases hlt : -50 < profit_pct fee tri amt
  · have hlt2 := hlt
    unfold profit_pct final_amount at hlt2
    simp [calculate_arbitrage_profit, profit_pct, final_amount, hlt, hlt2, eq_comm]
  · have hlt2 := hlt
    unfold profit_pct final_amount at hlt2
    simp [calculate_arbitrage_profit, profit_pct, final_amount, hlt, hlt2]

/-- C1: in the per-leg profit simulation, when the leg symbol's base asset
equals the currency currently held, the source divides the held amount by
the bid price (arbitrage.rs line 244) instead of multiplying by it as the
spec states; evaluated at a concrete leg (holding 1 BTC, BTCUSDT bid
50000, fee 0.1%), the code carries forward 999/50000000 quote units while
the specified update x * bid * (1 - fee) is 49950. -/
theorem sell_leg_divides_not_multiplies :
    (leg_trade btcusdt_pair "BTC" 1).1 * (1 - default_fee_rate) = 999/50000000 ∧
    1 * btcusdt_pair.bid_price * (1 - default_fee_rate) = 49950 ∧
    (leg_trade btcusdt_pair "BTC" 1).1 * (1 - default_fee_rate) ≠
      1 * btcusdt_pair.bid_price * (1 - default_fee_rate) := by
  refine ⟨?_, ?_, ?_⟩ <;> simp [leg_trade, btcusdt_pair, default_fee_rate] <;> norm_num

/-- A liquid pair AAAUSDT whose ask price (3) makes the first leg of the
triangle below triple the carried amount. -/
def aaausdt_pair : MarketPair :=
  { base := "AAA", quote := "USDT", symbol := "AAAUSDT", price := 3,
    bid_price := 299/100, ask_price := 3, bid_size := 100, ask_size := 100,
    volume_24h := 10000, volume_24h_usd := 30000, spread_percent := 1/3,
    min_qty := 0, qty_step := 0, min_notional := 0,
    is_active := true, is_liquid := true }

/-- A liquid pair BBBAAA priced at parity. -/
def bbbaaa_pair : MarketPair :=
  { base := "BBB", quote := "AAA", symbol := "BBBAAA", price := 1,
    bid_price := 99/100, ask_price := 1, bid_size := 200, ask_size := 200,
    volume_24h := 20000, volume_24h_usd := 20000, spread_percent := 1/2,
    min_qty := 0, qty_step := 0, min_notional := 0,
    is_active := true, is_liquid := true }

/-- A liquid pair USDTBBB priced at parity. -/
def usdtbbb_pair : MarketPair :=
  { base := "USDT", quote := "BBB", symbol := "USDTBBB", price := 1,
    bid_price := 99/100, ask_price := 1, bid_size := 200, ask_size := 200,
    volume_24h := 20000, volume_24h_usd := 20000, spread_percent := 1/2,
    min_qty := 0, qty_step := 0, min_notional := 0,
    is_active := true, is_liquid := true }

/-- A triangle USDT -> AAA -> BBB -> USDT whose simululated profit is
about +199 percent (all three legs take the buy branch). -/
def tri_high_profit : TrianglePairs :=
  { base_currency := "USDT", pair1 := aaausdt_pair, pair2 := bbbaaa_pair,
    pair3 := usdtbbb_pair, path := ["USDT", "AAA", "BBB", "USDT"] }

/-- The opportunity the scanner computes for `tri_high_profit` at initial
amount 100: profit percentage 199.1008997. -/
def high_profit_opp : ArbitrageOpportunity :=
  { path := ["USDT", "AAA", "BBB", "USDT"],
    pairs := ["AAAUSDT", "BBBAAA", "USDTBBB"],
    prices := [3, 1, 1],
    estimated_profit_pct := 1991008997/10000000,
    estimated_profit_usd := 1991008997/10000000 }

/-- C2 counterexample: a triangle whose computed profit percentage exceeds
+100 percent is still returned by `calculate_arbitrage_profit`; the source
filter (arbitrage.rs line 295) has no upper bound. -/
theorem calc_profit_keeps_above_100_pct :
    calculate_arbitrage_profit default_fee_rate tri_high_profit 100 = some high_profit_opp ∧
    100 < high_profit_opp.estimated_profit_pct := by
  constructor
  · simp [calculate_arbitrage_profit, test_amount_of, simulate_legs, triangle_legs,
      leg_trade, tri_high_profit, aaausdt_pair, bbbaaa_pair, usdtbbb_pair, default_fee_rate,
      high_profit_opp]
    norm_num
  · norm_num [high_profit_opp]

/-- C2 (amended): a triangle's opportunity is kept by
`calculate_arbitrage_profit` exactly when its profit percentage is
strictly above -50; there is no +100 upper cut. -/
theorem calc_profit_kept_iff_above_neg50 (fee : ℚ) (tri : TrianglePairs) (amt : ℚ) :
    (calculate_arbitrage_profit fee tri amt).isSome ↔ -50 < profit_pct fee tri amt := by
  constructor
  · intro h
    obtain ⟨opp, hopp⟩ := Option.isSome_iff_exists.mp h
    exact ((calc_profit_eq_some_iff fee tri amt opp).mp hopp).1
  · intro h
    rw [Option.isSome_iff_exists]
    exact ⟨_, (calc_profit_eq_some_iff fee tri amt _).mpr ⟨h, rfl⟩⟩

/-- C5 counterexample: the returned opportunity's profit percentage equals
the raw fee-adjusted three-leg result with no 0.15 percentage-point
slippage subtraction anywhere in `calculate_arbitrage_profit`. -/
theorem calc_profit_has_no_slippage_penalty :
    (calculate_arbitrage_profit default_fee_rate tri_high_profit 100).map
        (fun o => o.estimated_profit_pct) =
      some (profit_pct default_fee_rate tri_high_profit 100) ∧
    profit_pct default_fee_rate tri_high_profit 100 ≠
      profit_pct default_fee_rate tri_high_profit 100 - 15/100 := by
  constructor
  · simp [calculate_arbitrage_profit, profit_pct, final_amount, test_amount_of, simulate_legs,
      triangle_legs, leg_trade, tri_high_profit, aaausdt_pair, bbbaaa_pair, usdtbbb_pair,
      default_fee_rate]
    norm_num
  · simp [profit_pct, final_amount, test_amount_of, simulate_legs, triangle_legs, leg_trade,
      tri_high_profit, aaausdt_pair, bbbaaa_pair, usdtbbb_pair, default_fee_rate]
    norm_num

/-- C5 (amended): the scanner applies no slippage penalty at all; whenever
a triangle passes the -50 filter, the opportunity's estimated profit
percentage is exactly the fee-adjusted three-leg simulation result. -/
theorem calc_profit_pct_unpenalized (fee : ℚ) (tri : TrianglePairs) (amt : ℚ) :
    (calculate_arbitrage_profit fee tri amt).map (fun o => o.estimated_profit_pct) =
      if -50 < profit_pct fee tri amt then some (profit_pct fee tri amt) else none := by
  by_cases h : -50 < profit_pct fee tri amt
  · rw [(calc_profit_eq_some_iff fee tri amt _).mpr ⟨h, rfl⟩]
    simp [h]
  · have hnone : calculate_arbitrage_profit fee tri amt = none := by
      rcases hs : calculate_arbitrage_profit fee tri amt with _ | opp
      · rfl
      · exact absurd ((calc_profit_eq_some_iff fee tri amt opp).mp hs).1 h
    rw [hnone]
    simp [h]

theorem scan_foldl_invariant (eng : ArbitrageEngine) (pairs : List MarketPair) (t_amount : ℚ) :
    ∀ (l : List TrianglePairs) (acc : List ArbitrageOpportunity) (opp : ArbitrageOpportunity),
      opp ∈ l.foldl (scan_step eng pairs t_amount) acc →
      opp ∈ acc ∨
        (eng.profit_threshold ≤ opp.estimated_profit_pct ∧ -50 < opp.estimated_profit_pct) := by
  intro l
  induction l with
  | nil => exact fun acc opp h => Or.inl h
  | cons tri rest ih =>
    intro acc opp h
    rcases ih _ opp h with hmem | hprop
    · unfold scan_step at hmem
      split at hmem
      · exact Or.inl hmem
      · split at hmem
        · rename_i opp2 hcalc
          split at hmem
          · rcases List.mem_append.mp hmem with h1 | h2
            · exact Or.inl h1
            · have heq : opp = opp2 := by simpa using h2
              subst heq
              have := ((calc_profit_eq_some_iff _ _ _ _).mp hcalc)
              refine Or.inr ⟨by assumption, ?_⟩
              rw [this.2]
              exact this.1
          · exact Or.inl hmem
        · exact Or.inl hmem
    · exact Or.inr hprop

/-- C10: every opportunity in the list produced by
`scan_for_base_currency` has estimated profit percentage at least the
engine's configured profit threshold (the threshold filter runs inside the
scanner when pushing), and strictly above -50. -/
theorem scan_result_profit_bounds (eng : ArbitrageEngine) (pairs : List MarketPair)
    (triangles : List TrianglePairs) (t_amount : ℚ) (opp : ArbitrageOpportunity)
    (h : opp ∈ scan_for_base_currency eng pairs triangles t_amount) :
    eng.profit_threshold ≤ opp.estimated_profit_pct ∧ -50 < opp.estimated_profit_pct := by
  rcases scan_foldl_invariant eng pairs t_amount _ [] opp h with hmem | hprop
  · simp at hmem
  · exact hprop

/-- The engine as configured by `ArbitrageEngine::new`. -/
def witness_engine : ArbitrageEngine :=
  { profit_threshold := MIN_PROFIT_THRESHOLD, max_scan_count := 2000,
    trading_fee_rate := default_fee_rate }

/-- The pair book holding the three legs of `tri_high_profit`. -/
def witness_pairs : List MarketPair := [aaausdt_pair, bbbaaa_pair, usdtbbb_pair]

theorem scan_result_profit_bounds_witness :
    high_profit_opp ∈ scan_for_base_currency witness_engine witness_pairs [tri_high_profit] 100 ∧
    (witness_engine.profit_threshold ≤ high_profit_opp.estimated_profit_pct ∧
      -50 < high_profit_opp.estimated_profit_pct) :=
  ⟨by
    simp [scan_for_base_currency, scan_step, is_triangle_liquid_enough, get_pair_by_symbol,
      pair_liquid_check, calculate_arbitrage_profit, test_amount_of, simulate_legs,
      triangle_legs, leg_trade, tri_high_profit, aaausdt_pair, bbbaaa_pair, usdtbbb_pair,
      default_fee_rate, high_profit_opp, witness_engine, witness_pairs, MIN_VOLUME_24H_USD,
      MAX_SPREAD_PERCENT, MIN_TRADE_AMOUNT_USD, MIN_PROFIT_THRESHOLD]
    norm_num,
    scan_result_profit_bounds witness_engine witness_pairs [tri_high_profit] 100
      high_profit_opp (by
        simp [scan_for_base_currency, scan_step, is_triangle_liquid_enough, get_pair_by_symbol,
          pair_liquid_check, calculate_arbitrage_profit, test_amount_of, simulate_legs,
          triangle_legs, leg_trade, tri_high_profit, aaausdt_pair, bbbaaa_pair, usdtbbb_pair,
          default_fee_rate, high_profit_opp, witness_engine, witness_pairs, MIN_VOLUME_24H_USD,
          MAX_SPREAD_PERCENT, MIN_TRADE_AMOUNT_USD, MIN_PROFIT_THRESHOLD]
        norm_num)⟩

/-- `models.rs TickerInfo`, reduced to the numeric fields the pair
pipeline reads; each field holds the parsed value of the corresponding
string field, `none` when the field is absent or fails to parse. -/
structure TickerData where
  symbol : String
  last_price : Option ℚ := none
  bid1_price : Option ℚ := none
  ask1_price : Option ℚ := none
  bid1_size : Option ℚ := none
  ask1_size : Option ℚ := none
  volume24h : Option ℚ := none
  turnover24h : Option ℚ := none
deriving Repr, DecidableEq, Inhabited

/-- The liquidity thresholds read from `PairManager.config` inside
`pairs.rs update_from_ticker`. -/
structure LiquidityConfig where
  min_volume_24h_usd : ℚ
  max_spread_percent : ℚ
  min_bid_size_usd : ℚ
  min_ask_size_usd : ℚ
deriving Repr, DecidableEq

/-- pairs.rs lines 68-71: overwrite the last price when present. -/
def apply_last_price (pair : MarketPair) (t : TickerData) : MarketPair :=
  match t.last_price with
  | some p => { pair with price := p }
  | none => pair

/-- pairs.rs lines 76-85: accept a parsed bid only when it is positive;
the flag records whether a price was updated. -/
def apply_bid (pair : MarketPair) (t : TickerData) : MarketPair × Bool :=
  match t.bid1_price with
  | some b => if 0 < b then ({ pair with bid_price := b }, true) else (pair, false)
  | none => (pair, false)

/-- pairs.rs lines 87-96: accept a parsed ask only when it is positive,
keeping the bid update flag otherwise. -/
def apply_ask (s : MarketPair × Bool) (t : TickerData) : MarketPair × Bool :=
  match t.ask1_price with
  | some a => if 0 < a then ({ s.1 with ask_price := a }, true) else s
  | none => s

/-- pairs.rs lines 98-103: recompute the spread when a price changed. -/
def apply_spread (s : MarketPair × Bool) : MarketPair :=
  if s.2 ∧ 0 < s.1.bid_price then
    { s.1 with spread_percent := (s.1.ask_price - s.1.bid_price) / s.1.bid_price * 100 }
  else s.1

/-- pairs.rs lines 118-124: overwrite the 24h volume when present. -/
def apply_volume (pair : MarketPair) (t : TickerData) : MarketPair :=
  match t.volume24h with
  | some v => { pair with volume_24h := v }
  | none => pair

/-- pairs.rs lines 128-137: USD volume from the turnover, falling back to
volume times price. -/
def apply_turnover (pair : MarketPair) (t : TickerData) : MarketPair :=
  match t.turnover24h with
  | some tu => { pair with volume_24h_usd := tu }
  | none => { pair with volume_24h_usd := pair.volume_24h * pair.price }

/-- pairs.rs lines 140-153: overwrite top-of-book sizes when present. -/
def apply_sizes (pair : MarketPair) (t : TickerData) : MarketPair :=
  let pair1 := match t.bid1_size with
    | some s => { pair with bid_size := s }
    | none => pair
  match t.ask1_size with
  | some s => { pair1 with ask_size := s }
  | none => pair1

/-- pairs.rs lines 155-158: recompute the liquidity flag. -/
def apply_liquidity (cfg : LiquidityConfig) (pair : MarketPair) : MarketPair :=
  { pair with is_liquid :=
      (decide (cfg.min_volume_24h_usd ≤ pair.volume_24h_usd) &&
       decide (pair.spread_percent ≤ cfg.max_spread_percent) &&
       decide (cfg.min_bid_size_usd ≤ pair.bid_size * pair.bid_price) &&
       decide (cfg.min_ask_size_usd ≤ pair.ask_size * pair.ask_price)) }

/-- `pairs.rs update_from_ticker` (lines 50-161) applied to the book entry
found for the ticker symbol: the sequential field updates of the source,
in source order. -/
def update_from_ticker (cfg : LiquidityConfig) (pair : MarketPair) (t : TickerData) : MarketPair :=
  apply_liquidity cfg
    (apply_sizes (apply_turnover (apply_volume (apply_spread (apply_ask (apply_bid (apply_last_price pair t) t) t)) t) t) t)

/-- `models.rs InstrumentInfo`, reduced to the fields `MarketPair::new`
reads; numeric strings are modelled by their parsed values, and the
presence of the lot-size filter is folded into the field options. -/
structure InstrumentData where
  symbol : String
  status : String
  base_coin : String
  quote_coin : String
  min_order_qty : Option ℚ := none
  qty_step : Option ℚ := none
  min_notional_value : Option ℚ := none
deriving Repr, DecidableEq, Inhabited

/-- `models.rs MarketPair::new` (lines 324-421): construct a pair from an
instrument and its ticker, rejecting non-trading instruments and invalid
prices (any price not positive, or bid at or above ask). -/
def MarketPair.new (instrument : InstrumentData) (ticker : TickerData) : Option MarketPair :=
  if instrument.status ≠ "Trading" then none
  else
    match instrument.min_order_qty, ticker.last_price, ticker.bid1_price, ticker.ask1_price with
    | some min_qty, some price, some bid_price, some ask_price =>
      let qty_step := instrument.qty_step.getD (1/1000)
      let min_notional := instrument.min_notional_value.getD 0
      let bid_size := (ticker.bid1_size).getD 0
      let ask_size := (ticker.ask1_size).getD 0
      let volume_24h := (ticker.volume24h).getD 0
      let turnover_24h := (ticker.turnover24h).getD 0
      let spread_percent :=
        if 0 < bid_price ∧ 0 < ask_price then (ask_price - bid_price) / bid_price * 100 else 100
      let volume_24h_usd := if 0 < turnover_24h then turnover_24h else volume_24h * price
      if price ≤ 0 ∨ bid_price ≤ 0 ∨ ask_price ≤ 0 ∨ ask_price ≤ bid_price then none
      else
        some { base := instrument.base_coin, quote := instrument.quote_coin,
               symbol := instrument.symbol, price := price, bid_price := bid_price,
               ask_price := ask_price, bid_size := bid_size, ask_size := ask_size,
               volume_24h := volume_24h, volume_24h_usd := volume_24h_usd,
               spread_percent := spread_percent, min_qty := min_qty, qty_step := qty_step,
               min_notional := min_notional, is_active := true,
               is_liquid :=
                 (decide (MIN_VOLUME_24H_USD ≤ volume_24h_usd) &&
                  decide (spread_percent ≤ MAX_SPREAD_PERCENT) &&
                  decide (MIN_BID_SIZE_USD ≤ bid_size * bid_price) &&
                  decide (MIN_ASK_SIZE_USD ≤ ask_size * ask_price)) }
    | _, _, _, _ => none

/-- A valid book entry (bid 5 strictly below ask 10). -/
def stale_pair : MarketPair :=
  { base := "BTC", quote := "USDT", symbol := "BTCUSDT", price := 7,
    bid_price := 5, ask_price := 10, bid_size := 1, ask_size := 1,
    volume_24h := 0, volume_24h_usd := 0, spread_percent := 100,
    min_qty := 0, qty_step := 0, min_notional := 0,
    is_active := true, is_liquid := false }

/-- A ticker update whose only payload is a bid of 20, which crosses the
stored ask of 10. -/
def crossing_ticker : TickerData := { symbol := "BTCUSDT", bid1_price := some 20 }

/-- The liquidity thresholds of config.rs. -/
def default_liquidity_config : LiquidityConfig :=
  { min_volume_24h_usd := 10000, max_spread_percent := 1,
    min_bid_size_usd := 100, min_ask_size_usd := 100 }

/-- C4 counterexample: an update whose parsed bid (20) crosses the stored
ask (10) is applied rather than rejected; after the update the book entry
violates bid < ask, so update_from_ticker enforces no cross-side check. -/
theorem update_accepts_crossed_book :
    (update_from_ticker default_liquidity_config stale_pair crossing_ticker).bid_price = 20 ∧
    (update_from_ticker default_liquidity_config stale_pair crossing_ticker).ask_price = 10 ∧
    ¬((update_from_ticker default_liquidity_config stale_pair crossing_ticker).bid_price <
      (update_from_ticker default_liquidity_config stale_pair crossing_ticker).ask_price) := by
  refine ⟨?_, ?_, ?_⟩ <;>
    simp [update_from_ticker, apply_last_price, apply_bid, apply_ask, apply_spread,
      apply_volume, apply_turnover, apply_sizes, apply_liquidity, stale_pair,
      crossing_ticker, default_liquidity_config] <;> norm_num


theorem apply_last_price_bid (pair : MarketPair) (t : TickerData) :
    (apply_last_price pair t).bid_price = pair.bid_price := by
  unfold apply_last_price
  rcases t.last_price with _ | p <;> rfl

theorem apply_last_price_ask (pair : MarketPair) (t : TickerData) :
    (apply_last_price pair t).ask_price = pair.ask_price := by
  unfold apply_last_price
  rcases t.last_price with _ | p <;> rfl

theorem apply_bid_bid_pos (pair : MarketPair) (t : TickerData) (h : 0 < pair.bid_price) :
    0 < (apply_bid pair t).1.bid_price := by
  unfold apply_bid
  rcases t.bid1_price with _ | b
  · exact h
  · by_cases hb : 0 < b
    · simp [hb]
    · simp [hb, h]

theorem apply_bid_ask (pair : MarketPair) (t : TickerData) :
    (apply_bid pair t).1.ask_price = pair.ask_price := by
  unfold apply_bid
  rcases t.bid1_price with _ | b
  · rfl
  · by_cases hb : 0 < b <;> simp [hb]

theorem apply_ask_bid (s : MarketPair × Bool) (t : TickerData) :
    (apply_ask s t).1.bid_price = s.1.bid_price := by
  unfold apply_ask
  rcases t.ask1_price with _ | a
  · rfl
  · by_cases ha : 0 < a <;> simp [ha]

theorem apply_ask_ask_pos (s : MarketPair × Bool) (t : TickerData) (h : 0 < s.1.ask_price) :
    0 < (apply_ask s t).1.ask_price := by
  unfold apply_ask
  rcases t.ask1_price with _ | a
  · exact h
  · by_cases ha : 0 < a
    · simp [ha]
    · simp [ha, h]

theorem apply_spread_bid (s : MarketPair × Bool) :
    (apply_spread s).bid_price = s.1.bid_price := by
  unfold apply_spread
  split <;> rfl

theorem apply_spread_ask (s : MarketPair × Bool) :
    (apply_spread s).ask_price = s.1.ask_price := by
  unfold apply_spread
  split <;> rfl

theorem apply_volume_bid (pair : MarketPair) (t : TickerData) :
    (apply_volume pair t).bid_price = pair.bid_price := by
  unfold apply_volume
  rcases t.volume24h with _ | v <;> rfl

theorem apply_volume_ask (pair : MarketPair) (t : TickerData) :
    (apply_volume pair t).ask_price = pair.ask_price := by
  unfold apply_volume
  rcases t.volume24h with _ | v <;> rfl

theorem apply_turnover_bid (pair : MarketPair) (t : TickerData) :
    (apply_turnover pair t).bid_price = pair.bid_price := by
  unfold apply_turnover
  rcases t.turnover24h with _ | tu <;> rfl

theorem apply_turnover_ask (pair : MarketPair) (t : TickerData) :
    (apply_turnover pair t).ask_price = pair.ask_price := by
  unfold apply_turnover
  rcases t.turnover24h with _ | tu <;> rfl

theorem apply_sizes_bid (pair : MarketPair) (t : TickerData) :
    (apply_sizes pair t).bid_price = pair.bid_price := by
  unfold apply_sizes
  rcases t.bid1_size with _ | s1 <;> rcases t.ask1_size with _ | s2 <;> rfl

theorem apply_sizes_ask (pair : MarketPair) (t : TickerData) :
    (apply_sizes pair t).ask_price = pair.ask_price := by
  unfold apply_sizes
  rcases t.bid1_size with _ | s1 <;> rcases t.ask1_size with _ | s2 <;> rfl

theorem apply_liquidity_bid (cfg : LiquidityConfig) (pair : MarketPair) :
    (apply_liquidity cfg pair).bid_price = pair.bid_price := rfl

theorem apply_liquidity_ask (cfg : LiquidityConfig) (pair : MarketPair) :
    (apply_liquidity cfg pair).ask_price = pair.ask_price := rfl

theorem update_preserves_positive_prices (cfg : LiquidityConfig) (pair : MarketPair)
    (t : TickerData) (hbid : 0 < pair.bid_price) (hask : 0 < pair.ask_price) :
    0 < (update_from_ticker cfg pair t).bid_price ∧
      0 < (update_from_ticker cfg pair t).ask_price := by
  unfold update_from_ticker
  constructor
  · rw [apply_liquidity_bid, apply_sizes_bid, apply_turnover_bid, apply_volume_bid,
      apply_spread_bid, apply_ask_bid]
    exact apply_bid_bid_pos _ _ (by rw [apply_last_price_bid]; exact hbid)
  · rw [apply_liquidity_ask, apply_sizes_ask, apply_turnover_ask, apply_volume_ask,
      apply_spread_ask]
    refine apply_ask_ask_pos _ _ ?_
    have : (apply_bid (apply_last_price pair t) t).1.ask_price = pair.ask_price := by
      rw [apply_bid_ask, apply_last_price_ask]
    rw [this]
    exact hask

theorem new_pair_valid (instrument : InstrumentData) (ticker : TickerData) (p : MarketPair)
    (h : MarketPair.new instrument ticker = some p) :
    0 < p.price ∧ 0 < p.bid_price ∧ p.bid_price < p.ask_price := by
  unfold MarketPair.new at h
  split at h
  · exact absurd h (by simp)
  · rcases hmq : instrument.min_order_qty with _ | mq <;>
      rcases hlp : ticker.last_price with _ | lp <;>
        rcases hbp : ticker.bid1_price with _ | bp <;>
          rcases hap : ticker.ask1_price with _ | ap <;>
            simp only [hmq, hlp, hbp, hap] at h <;>
      try exact Option.noConfusion h
    by_cases hc : lp ≤ 0 ∨ bp ≤ 0 ∨ ap ≤ 0 ∨ ap ≤ bp
    · rw [if_pos hc] at h
      exact absurd h (by simp)
    · rw [if_neg hc] at h
      push_neg at hc
      have hp := Option.some.inj h
      subst hp
      exact ⟨hc.1, hc.2.1, hc.2.2.2⟩

/-- C4 (amended): `MarketPair::new` admits a pair only when its last price
is positive, its bid is positive and its bid is strictly below its ask;
`update_from_ticker` applies a parsed bid or ask only when the new price
is positive, so bid and ask stay positive across any sequence of updates.
The relation bid < ask, however, is checked only at creation and is not
re-checked when an update arrives. -/
theorem quote_book_price_invariants (instrument : InstrumentData) (ticker : TickerData)
    (p : MarketPair) (cfg : LiquidityConfig) (pair : MarketPair) (t : TickerData)
    (hnew : MarketPair.new instrument ticker = some p)
    (hbid : 0 < pair.bid_price) (hask : 0 < pair.ask_price) :
    (0 < p.price ∧ 0 < p.bid_price ∧ p.bid_price < p.ask_price) ∧
    (0 < (update_from_ticker cfg pair t).bid_price ∧
      0 < (update_from_ticker cfg pair t).ask_price) :=
  ⟨new_pair_valid instrument ticker p hnew,
   update_preserves_positive_prices cfg pair t hbid hask⟩

/-- The BTCUSDT instrument record matching `btcusdt_pair`. -/
def btcusdt_instrument : InstrumentData :=
  { symbol := "BTCUSDT", status := "Trading", base_coin := "BTC", quote_coin := "USDT",
    min_order_qty := some 0, qty_step := some 0, min_notional_value := some 0 }

/-- The BTCUSDT bootstrap ticker matching `btcusdt_pair`. -/
def btcusdt_ticker : TickerData :=
  { symbol := "BTCUSDT", last_price := some 50000, bid1_price := some 50000,
    ask1_price := some 50001, bid1_size := some 1, ask1_size := some 1,
    volume24h := some 1000, turnover24h := some 50000000 }

theorem quote_book_price_invariants_witness :
    (MarketPair.new btcusdt_instrument btcusdt_ticker = some btcusdt_pair ∧
      0 < stale_pair.bid_price ∧ 0 < stale_pair.ask_price) ∧
    ((0 < btcusdt_pair.price ∧ 0 < btcusdt_pair.bid_price ∧
        btcusdt_pair.bid_price < btcusdt_pair.ask_price) ∧
      (0 < (update_from_ticker default_liquidity_config stale_pair crossing_ticker).bid_price ∧
        0 < (update_from_ticker default_liquidity_config stale_pair crossing_ticker).ask_price)) :=
  ⟨⟨by
      simp [MarketPair.new, btcusdt_instrument, btcusdt_ticker, btcusdt_pair,
        MIN_VOLUME_24H_USD, MAX_SPREAD_PERCENT, MIN_BID_SIZE_USD, MIN_ASK_SIZE_USD]
      norm_num,
    by norm_num [stale_pair], by norm_num [stale_pair]⟩,
   quote_book_price_invariants btcusdt_instrument btcusdt_ticker btcusdt_pair
     default_liquidity_config stale_pair crossing_ticker
     (by
       simp [MarketPair.new, btcusdt_instrument, btcusdt_ticker, btcusdt_pair,
         MIN_VOLUME_24H_USD, MAX_SPREAD_PERCENT, MIN_BID_SIZE_USD, MIN_ASK_SIZE_USD]
       norm_num)
     (by norm_num [stale_pair]) (by norm_num [stale_pair])⟩

/-- `pairs.rs TriangleDefinition`: a cached triangle with its base
currency, the three pair indices and the currency path. -/
structure TriangleDefinition where
  base_currency : String
  indices : ℕ × ℕ × ℕ
  path : List String
deriving Repr, DecidableEq, Inhabited

/-- Index into the pair vector (`self.pairs[idx]`). -/
def getPair (pairs : List MarketPair) (i : ℕ) : MarketPair := pairs.getD i default

/-- pairs.rs lines 268-274: the indices of the liquid pairs. -/
def liquid_indices (pairs : List MarketPair) : List ℕ :=
  (List.range pairs.length).filter (fun i => (getPair pairs i).is_liquid)

/-- The innermost loop of `rebuild_triangle_cache` (pairs.rs lines
317-339): find a third pair closing the loop back to the base currency. -/
def triangles_inner3 (pairs : List MarketPair) (base intermediate final_currency : String)
    (idx1 idx2 : ℕ) : List TriangleDefinition :=
  (liquid_indices pairs).flatMap fun idx3 =>
    if idx3 = idx1 ∨ idx3 = idx2 then []
    else
      let pair3 := getPair pairs idx3
      if (pair3.base = final_currency ∧ pair3.quote = base) ∨
          (pair3.quote = final_currency ∧ pair3.base = base) then
        [{ base_currency := base, indices := (idx1, idx2, idx3),
           path := [base, intermediate, final_currency, base] }]
      else []

/-- The middle loop of `rebuild_triangle_cache` (pairs.rs lines 297-340):
find a second pair connecting the intermediate currency onward. -/
def triangles_inner2 (pairs : List MarketPair) (base intermediate : String)
    (idx1 : ℕ) : List TriangleDefinition :=
  (liquid_indices pairs).flatMap fun idx2 =>
    if idx1 = idx2 then []
    else
      let pair2 := getPair pairs idx2
      if pair2.base ≠ intermediate ∧ pair2.quote ≠ intermediate then []
      else
        let final_currency := if pair2.base = intermediate then pair2.quote else pair2.base
        if final_currency = base ∨ final_currency = intermediate then []
        else triangles_inner3 pairs base intermediate final_currency idx1 idx2

/-- `pairs.rs rebuild_triangle_cache` (lines 260-347), specialised to one
base currency: the triangles cached for that currency. -/
def rebuild_triangles_for (pairs : List MarketPair) (base : String) : List TriangleDefinition :=
  (liquid_indices pairs).flatMap fun idx1 =>
    let pair1 := getPair pairs idx1
    if pair1.base ≠ base ∧ pair1.quote ≠ base then []
    else
      let intermediate := if pair1.base = base then pair1.quote else pair1.base
      if intermediate = base then []
      else triangles_inner2 pairs base intermediate idx1

theorem mem_triangles_inner3 (pairs : List MarketPair) (base intermediate final_currency : String)
    (idx1 idx2 : ℕ) (t : TriangleDefinition)
    (h : t ∈ triangles_inner3 pairs base intermediate final_currency idx1 idx2) :
    ∃ idx3, idx3 ≠ idx1 ∧ idx3 ≠ idx2 ∧
      t = { base_currency := base, indices := (idx1, idx2, idx3),
            path := [base, intermediate, final_currency, base] } := by
  unfold triangles_inner3 at h
  rw [List.mem_flatMap] at h
  obtain ⟨idx3, hidx3, h3⟩ := h
  by_cases hdup : idx3 = idx1 ∨ idx3 = idx2
  · rw [if_pos hdup] at h3
    exact absurd h3 (List.not_mem_nil t)
  · rw [if_neg hdup] at h3
    push_neg at hdup
    simp only [] at h3
    split at h3
    · rw [List.mem_singleton] at h3
      exact ⟨idx3, hdup.1, hdup.2, h3⟩
    · exact absurd h3 (List.not_mem_nil t)

theorem mem_triangles_inner2 (pairs : List MarketPair) (base intermediate : String)
    (idx1 : ℕ) (t : TriangleDefinition)
    (h : t ∈ triangles_inner2 pairs base intermediate idx1) :
    ∃ idx2 final_currency, idx1 ≠ idx2 ∧ final_currency ≠ base ∧ final_currency ≠ intermediate ∧
      t ∈ triangles_inner3 pairs base intermediate final_currency idx1 idx2 := by
  unfold triangles_inner2 at h
  rw [List.mem_flatMap] at h
  obtain ⟨idx2, hidx2, h2⟩ := h
  by_cases h12 : idx1 = idx2
  · rw [if_pos h12] at h2
    exact absurd h2 (List.not_mem_nil t)
  · rw [if_neg h12] at h2
    simp only [] at h2
    by_cases htouch : (getPair pairs idx2).base ≠ intermediate ∧
        (getPair pairs idx2).quote ≠ intermediate
    · rw [if_pos htouch] at h2
      exact absurd h2 (List.not_mem_nil t)
    · rw [if_neg htouch] at h2
      generalize hfc : (if (getPair pairs idx2).base = intermediate then
          (getPair pairs idx2).quote else (getPair pairs idx2).base) = fc at h2
      by_cases hguard : fc = base ∨ fc = intermediate
      · rw [if_pos hguard] at h2
        exact absurd h2 (List.not_mem_nil t)
      · rw [if_neg hguard] at h2
        push_neg at hguard
        exact ⟨idx2, fc, h12, hguard.1, hguard.2, h2⟩

theorem mem_rebuild_triangles_for (pairs : List MarketPair) (base : String)
    (t : TriangleDefinition) (h : t ∈ rebuild_triangles_for pairs base) :
    ∃ intermediate idx1, intermediate ≠ base ∧
      t ∈ triangles_inner2 pairs base intermediate idx1 := by
  unfold rebuild_triangles_for at h
  rw [List.mem_flatMap] at h
  obtain ⟨idx1, hidx1, h1⟩ := h
  simp only [] at h1
  by_cases hbase : (getPair pairs idx1).base ≠ base ∧ (getPair pairs idx1).quote ≠ base
  · rw [if_pos hbase] at h1
    exact absurd h1 (List.not_mem_nil t)
  · rw [if_neg hbase] at h1
    generalize hic : (if (getPair pairs idx1).base = base then
        (getPair pairs idx1).quote else (getPair pairs idx1).base) = ic at h1
    by_cases hmid : ic = base
    · rw [if_pos hmid] at h1
      exact absurd h1 (List.not_mem_nil t)
    · rw [if_neg hmid] at h1
      exact ⟨ic, idx1, hmid, h1⟩

/-- C9: every triangle placed in the cache has a length-4 path whose first
and last entries are the base currency, whose middle currencies are
distinct from the base and from each other, and whose three pair indices
are pairwise distinct. -/
theorem triangle_cache_wellformed (pairs : List MarketPair) (base : String)
    (t : TriangleDefinition) (h : t ∈ rebuild_triangles_for pairs base) :
    t.path.length = 4 ∧
    t.path.getD 0 "" = base ∧
    t.path.getD 3 "" = t.path.getD 0 "" ∧
    t.path.getD 1 "" ≠ t.path.getD 0 "" ∧
    t.path.getD 2 "" ≠ t.path.getD 0 "" ∧
    t.path.getD 2 "" ≠ t.path.getD 1 "" ∧
    t.indices.1 ≠ t.indices.2.1 ∧ t.indices.1 ≠ t.indices.2.2 ∧
    t.indices.2.1 ≠ t.indices.2.2 := by
  obtain ⟨ic, idx1, hmid, h1⟩ := mem_rebuild_triangles_for pairs base t h
  obtain ⟨idx2, fc, h12, hfb, hfi, h2⟩ := mem_triangles_inner2 pairs base ic idx1 t h1
  obtain ⟨idx3, h31, h32, rfl⟩ := mem_triangles_inner3 pairs base ic fc idx1 idx2 t h2
  refine ⟨rfl, rfl, rfl, hmid, hfb, hfi, h12, ?_, ?_⟩
  · exact fun hx => h31 hx.symm
  · exact fun hx => h32 hx.symm

/-- A liquid ETHUSDT pair. -/
def ethusdt_pair : MarketPair :=
  { base := "ETH", quote := "USDT", symbol := "ETHUSDT", price := 3000,
    bid_price := 3000, ask_price := 3001, bid_size := 10, ask_size := 10,
    volume_24h := 5000, volume_24h_usd := 15000000, spread_percent := 1/30,
    min_qty := 0, qty_step := 0, min_notional := 0,
    is_active := true, is_liquid := true }

/-- A liquid ETHBTC pair. -/
def ethbtc_pair : MarketPair :=
  { base := "ETH", quote := "BTC", symbol := "ETHBTC", price := 3/50,
    bid_price := 3/50, ask_price := 601/10000, bid_size := 10, ask_size := 10,
    volume_24h := 5000, volume_24h_usd := 900000, spread_percent := 1/6,
    min_qty := 0, qty_step := 0, min_notional := 0,
    is_active := true, is_liquid := true }

/-- A pair book with the classic USDT/BTC/ETH triangle. -/
def triangle_pair_book : List MarketPair := [btcusdt_pair, ethusdt_pair, ethbtc_pair]

/-- The triangle USDT -> BTC -> ETH -> USDT over `triangle_pair_book`,
built from pair indices 0 (BTCUSDT), 2 (ETHBTC) and 1 (ETHUSDT). -/
def usdt_btc_eth_triangle : TriangleDefinition :=
  { base_currency := "USDT", indices := (0, 2, 1),
    path := ["USDT", "BTC", "ETH", "USDT"] }

theorem triangle_cache_wellformed_witness :
    usdt_btc_eth_triangle ∈ rebuild_triangles_for triangle_pair_book "USDT" ∧
    (usdt_btc_eth_triangle.path.length = 4 ∧
     usdt_btc_eth_triangle.path.getD 0 "" = "USDT" ∧
     usdt_btc_eth_triangle.path.getD 3 "" = usdt_btc_eth_triangle.path.getD 0 "" ∧
     usdt_btc_eth_triangle.path.getD 1 "" ≠ usdt_btc_eth_triangle.path.getD 0 "" ∧
     usdt_btc_eth_triangle.path.getD 2 "" ≠ usdt_btc_eth_triangle.path.getD 0 "" ∧
     usdt_btc_eth_triangle.path.getD 2 "" ≠ usdt_btc_eth_triangle.path.getD 1 "" ∧
     usdt_btc_eth_triangle.indices.1 ≠ usdt_btc_eth_triangle.indices.2.1 ∧
     usdt_btc_eth_triangle.indices.1 ≠ usdt_btc_eth_triangle.indices.2.2 ∧
     usdt_btc_eth_triangle.indices.2.1 ≠ usdt_btc_eth_triangle.indices.2.2) :=
  ⟨by decide, triangle_cache_wellformed triangle_pair_book "USDT" usdt_btc_eth_triangle
    (by decide)⟩

/-- The fields of `trader.rs ArbitrageExecutionResult` the control-flow
claims concern; `timed_out` records that the failure carried the
"Execution timeout" error message (line 148) rather than a leg error. -/
structure ExecOutcome where
  success : Bool
  rollback_entered : Bool
  legs_filled : ℕ
  timed_out : Bool
deriving Repr, DecidableEq

/-- `trader.rs execute_arbitrage` (lines 96-318), stripped to its control
flow over the three legs.  Each list entry is one loop iteration: the
elapsed seconds observed at the top of the iteration (line 134) and
whether the leg fills.  When the elapsed time exceeds 10 seconds the
function returns a failure result at once (lines 134-151), before any
rollback; when a leg errors, rollback_trades is attempted exactly when at
least one earlier leg filled (lines 268-275); otherwise the loop
continues with one more filled leg. -/
def execute_legs : List (ℚ × Bool) → ℕ → ExecOutcome
  | [], filled =>
    { success := true, rollback_entered := false, legs_filled := filled, timed_out := false }
  | (elapsed, ok) :: rest, filled =>
    if 10 < elapsed then
      { success := false, rollback_entered := false, legs_filled := filled, timed_out := true }
    else if ok then execute_legs rest (filled + 1)
    else
      { success := false, rollback_entered := decide (filled ≠ 0), legs_filled := filled,
        timed_out := false }

/-- The executor run started with no legs filled. -/
def execute_arbitrage (legs : List (ℚ × Bool)) : ExecOutcome := execute_legs legs 0

/-- C3 counterexample: leg 1 fills, then the elapsed time at the top of
leg 2 is 11 seconds; the executor aborts with one leg already filled yet
returns the failure without entering the rollback path. -/
theorem timeout_returns_without_rollback :
    execute_arbitrage [(0, true), (11, true), (11, true)] =
      { success := false, rollback_entered := false, legs_filled := 1, timed_out := true } ∧
    1 ≤ (execute_arbitrage [(0, true), (11, true), (11, true)]).legs_filled := by
  refine ⟨?_, ?_⟩ <;> norm_num [execute_arbitrage, execute_legs]

/-- C3 (amended): when the 10-second guard trips, the executor returns a
failure result immediately and never enters rollback, regardless of how
many legs have already filled; rollback happens only when a leg errors
with at least one filled leg. -/
theorem timeout_never_rolls_back (legs : List (ℚ × Bool)) (n : ℕ)
    (h : (execute_legs legs n).timed_out = true) :
    (execute_legs legs n).success = false ∧
      (execute_legs legs n).rollback_entered = false := by
  induction legs generalizing n with
  | nil => simp [execute_legs] at h
  | cons leg rest ih =>
    obtain ⟨elapsed, ok⟩ := leg
    unfold execute_legs at h ⊢
    by_cases hel : 10 < elapsed
    · rw [if_pos hel]
      exact ⟨rfl, rfl⟩
    · rw [if_neg hel] at h ⊢
      by_cases hok : ok = true
      · rw [if_pos hok] at h ⊢
        exact ih (n + 1) h
      · rw [if_neg hok] at h
        simp at h

theorem timeout_never_rolls_back_witness :
    (execute_legs [(0, true), (11, true)] 0).timed_out = true ∧
    ((execute_legs [(0, true), (11, true)] 0).success = false ∧
      (execute_legs [(0, true), (11, true)] 0).rollback_entered = false) :=
  ⟨by norm_num [execute_legs],
   timeout_never_rolls_back [(0, true), (11, true)] 0 (by norm_num [execute_legs])⟩

/-- One order submission made during rollback, as built by
`attempt_order_placement` (trader.rs lines 1075-1103): always a spot
market order with time-in-force IOC.  `step` is the 1-based leg the order
reverses. -/
structure RollbackOrder where
  step : ℕ
  symbol : String
  side : String
  qty : ℚ
  order_type : String
  time_in_force : String
deriving Repr, DecidableEq

/-- `trader.rs rollback_trades` (lines 321-388): walk `current_step` from
the number of filled legs down to 1.  Per iteration: query the balance of
the currently held asset (`balances step`), take 99 percent of it, skip
the step when that amount is not positive, otherwise resolve the side via
determine_trade_action (`side_of step`; the amount passes through
unchanged, trader.rs lines 702-710 and 744-756) and submit one market IOC
order.  A routing failure (`route_ok step = false`) aborts before any
submission for that step; a placement failure (`place_ok step = false`)
aborts after that single submission — both through the question-mark
operator.  Returns the submitted orders, most recently filled leg
first. -/
def rollback_trades (pairs : List String) (balances : ℕ → ℚ) (side_of : ℕ → String)
    (route_ok place_ok : ℕ → Bool) : ℕ → List RollbackOrder
  | 0 => []
  | n + 1 =>
    let current_step := n + 1
    let trade_amount := balances current_step * (99/100)
    if trade_amount ≤ 0 then rollback_trades pairs balances side_of route_ok place_ok n
    else if route_ok current_step = false then []
    else
      let order : RollbackOrder :=
        { step := current_step, symbol := pairs.getD n "", side := side_of current_step,
          qty := trade_amount, order_type := "Market", time_in_force := "IOC" }
      if place_ok current_step then
        order :: rollback_trades pairs balances side_of route_ok place_ok n
      else [order]

theorem rollback_trades_step_le (pairs : List String) (balances : ℕ → ℚ)
    (side_of : ℕ → String) (route_ok place_ok : ℕ → Bool) :
    ∀ (n : ℕ) (o : RollbackOrder),
      o ∈ rollback_trades pairs balances side_of route_ok place_ok n → o.step ≤ n := by
  intro n
  induction n with
  | zero => intro o h; exact absurd h (List.not_mem_nil o)
  | succ m ih =>
    intro o h
    unfold rollback_trades at h
    simp only [] at h
    split at h
    · exact Nat.le_succ_of_le (ih o h)
    · split at h
      · exact absurd h (List.not_mem_nil o)
      · split at h
        · rcases List.mem_cons.mp h with rfl | hmem
          · exact Nat.le_refl _
          · exact Nat.le_succ_of_le (ih o hmem)
        · rw [List.mem_singleton] at h
          subst h
          exact Nat.le_refl _

/-- C8: rollback walks the filled legs in strictly reverse order (the
submitted orders carry strictly decreasing leg numbers), submits per leg
at most one order, always a market IOC sized at 99 percent of the queried
balance of the held asset, and in total never submits more orders than
the `n` legs previously filled. -/
theorem rollback_order_discipline (pairs : List String) (balances : ℕ → ℚ)
    (side_of : ℕ → String) (route_ok place_ok : ℕ → Bool) (n : ℕ) :
    (rollback_trades pairs balances side_of route_ok place_ok n).length ≤ n ∧
    ((rollback_trades pairs balances side_of route_ok place_ok n).map
      (fun o => o.step)).Chain' (fun a b => b < a) ∧
    ∀ o ∈ rollback_trades pairs balances side_of route_ok place_ok n,
      1 ≤ o.step ∧ o.step ≤ n ∧ o.qty = balances o.step * (99/100) ∧
      o.order_type = "Market" ∧ o.time_in_force = "IOC" := by
  induction n with
  | zero =>
    refine ⟨Nat.le_refl 0, List.chain'_nil, ?_⟩
    intro o h
    exact absurd h (List.not_mem_nil o)
  | succ m ih =>
    obtain ⟨ihlen, ihchain, ihmem⟩ := ih
    constructor
    · unfold rollback_trades
      simp only []
      split
      · exact Nat.le_succ_of_le ihlen
      · split
        · simp
        · split
          · simpa using Nat.succ_le_succ ihlen
          · simp
    constructor
    · unfold rollback_trades
      simp only []
      split
      · exact ihchain
      · split
        · simp
        · split
          · rw [List.map_cons]
            refine List.chain'_cons'.mpr ⟨?_, ihchain⟩
            intro y hy
            obtain ⟨o, hmem, rfl⟩ :=
              List.exists_of_mem_map (List.mem_of_mem_head? hy)
            exact Nat.lt_succ_of_le
              (rollback_trades_step_le pairs balances side_of route_ok place_ok m o hmem)
          · simp
    · intro o h
      unfold rollback_trades at h
      simp only [] at h
      split at h
      · obtain ⟨h1, h2, h3, h4, h5⟩ := ihmem o h
        exact ⟨h1, Nat.le_succ_of_le h2, h3, h4, h5⟩
      · split at h
        · exact absurd h (List.not_mem_nil o)
        · split at h
          · rcases List.mem_cons.mp h with rfl | hmem
            · exact ⟨Nat.succ_le_succ (Nat.zero_le m), Nat.le_refl _, rfl, rfl, rfl⟩
            · obtain ⟨h1, h2, h3, h4, h5⟩ := ihmem o hmem
              exact ⟨h1, Nat.le_succ_of_le h2, h3, h4, h5⟩
          · rw [List.mem_singleton] at h
            subst h
            exact ⟨Nat.succ_le_succ (Nat.zero_le m), Nat.le_refl _, rfl, rfl, rfl⟩

/-- Balances held after each leg of the witness rollback: 100 USDC after
leg 1 and 5 ENS after leg 2. -/
def witness_balances : ℕ → ℚ := fun n => [0, 100, 5].getD n 0

theorem rollback_order_discipline_witness :
    (rollback_trades ["USDCUSDT", "ENSUSDC", "ENSUSDT"] witness_balances
        (fun _ => "Sell") (fun _ => true) (fun _ => true) 2).length = 2 ∧
    ((rollback_trades ["USDCUSDT", "ENSUSDC", "ENSUSDT"] witness_balances
        (fun _ => "Sell") (fun _ => true) (fun _ => true) 2).length ≤ 2 ∧
      ((rollback_trades ["USDCUSDT", "ENSUSDC", "ENSUSDT"] witness_balances
          (fun _ => "Sell") (fun _ => true) (fun _ => true) 2).map
        (fun o => o.step)).Chain' (fun a b => b < a) ∧
      ∀ o ∈ rollback_trades ["USDCUSDT", "ENSUSDC", "ENSUSDT"] witness_balances
          (fun _ => "Sell") (fun _ => true) (fun _ => true) 2,
        1 ≤ o.step ∧ o.step ≤ 2 ∧ o.qty = witness_balances o.step * (99/100) ∧
        o.order_type = "Market" ∧ o.time_in_force = "IOC") :=
  ⟨by norm_num [rollback_trades, witness_balances],
   rollback_order_discipline ["USDCUSDT", "ENSUSDC", "ENSUSDT"] witness_balances
     (fun _ => "Sell") (fun _ => true) (fun _ => true) 2⟩

/-- `precision.rs PrecisionInfo`, reduced to the routing fields
`build_symbol_map` reads. -/
structure PrecisionEntry where
  symbol : String
  base_coin : String
  quote_coin : String
deriving Repr, DecidableEq, Inhabited

/-- `trader.rs build_symbol_map` (lines 58-93): for every symbol insert
base++quote -> (symbol, Sell) and then quote++base -> (symbol, Buy) into
a hash map.  A later insert with an equal key overwrites an earlier one;
prepending the newer binding models this, because lookup takes the first
(most recent) match. -/
def build_symbol_map (entries : List PrecisionEntry) : List (String × String × String) :=
  entries.foldl (fun m e =>
    (e.quote_coin ++ e.base_coin, (e.symbol, "Buy")) ::
    (e.base_coin ++ e.quote_coin, (e.symbol, "Sell")) :: m) []

/-- Rust `str::to_uppercase` restricted to its ASCII behaviour, which is
all the exchange ticker alphabet uses. -/
def uppercase (s : String) : String := String.mk (s.data.map Char.toUpper)

/-- `trader.rs get_action_for_conversion` (lines 767-778): the key is the
uppercased concatenation from++to; returns the cached (symbol, action). -/
def get_action_for_conversion (m : List (String × String × String))
    (from_currency to_currency : String) : Option (String × String) :=
  m.lookup (uppercase from_currency ++ uppercase to_currency)

/-- The per-entry key/binding block of the symbol map, newest first. -/
def entry_bindings (e : PrecisionEntry) : List (String × String × String) :=
  [(e.quote_coin ++ e.base_coin, (e.symbol, "Buy")),
   (e.base_coin ++ e.quote_coin, (e.symbol, "Sell"))]

/-- The two keys an entry inserts, in insertion order. -/
def entry_keys (e : PrecisionEntry) : List String :=
  [e.base_coin ++ e.quote_coin, e.quote_coin ++ e.base_coin]

theorem build_symbol_map_foldl (entries : List PrecisionEntry) :
    ∀ acc, entries.foldl (fun m e =>
        (e.quote_coin ++ e.base_coin, (e.symbol, "Buy")) ::
        (e.base_coin ++ e.quote_coin, (e.symbol, "Sell")) :: m) acc =
      entries.reverse.flatMap entry_bindings ++ acc := by
  induction entries with
  | nil => intro acc; simp
  | cons e rest ih =>
    intro acc
    rw [List.foldl_cons, ih, List.reverse_cons, List.flatMap_append]
    simp [entry_bindings]

theorem build_symbol_map_eq (entries : List PrecisionEntry) :
    build_symbol_map entries = entries.reverse.flatMap entry_bindings := by
  rw [build_symbol_map, build_symbol_map_foldl]
  simp

theorem lookup_entry_block (l : List PrecisionEntry) (e : PrecisionEntry)
    (hmem : e ∈ l) (hkeys : (l.flatMap entry_keys).Nodup) :
    (l.flatMap entry_bindings).lookup (e.base_coin ++ e.quote_coin) =
      some (e.symbol, "Sell") ∧
    (l.flatMap entry_bindings).lookup (e.quote_coin ++ e.base_coin) =
      some (e.symbol, "Buy") := by
  induction l with
  | nil => exact absurd hmem (List.not_mem_nil e)
  | cons x rest ih =>
    rw [List.flatMap_cons] at hkeys ⊢
    have hkx : entry_keys x = [x.base_coin ++ x.quote_coin, x.quote_coin ++ x.base_coin] := rfl
    rw [hkx] at hkeys
    rw [List.cons_append, List.cons_append, List.nil_append, List.nodup_cons,
      List.nodup_cons] at hkeys
    obtain ⟨hd1, hd2, hrestnd⟩ := hkeys
    rcases List.mem_cons.mp hmem with rfl | hmem2
    · have hdr : e.base_coin ++ e.quote_coin ≠ e.quote_coin ++ e.base_coin := by
        intro hx
        exact hd1 (by rw [hx]; exact List.mem_cons_self _ _)
      have hbdr : (e.base_coin ++ e.quote_coin == e.quote_coin ++ e.base_coin) = false :=
        beq_eq_false_iff_ne.mpr hdr
      constructor
      · simp [entry_bindings, List.lookup, hbdr]
      · simp [entry_bindings, List.lookup]
    · have hmemdir : e.base_coin ++ e.quote_coin ∈ rest.flatMap entry_keys :=
        List.mem_flatMap.mpr ⟨e, hmem2, by simp [entry_keys]⟩
      have hmemrev : e.quote_coin ++ e.base_coin ∈ rest.flatMap entry_keys :=
        List.mem_flatMap.mpr ⟨e, hmem2, by simp [entry_keys]⟩
      have hne1 : e.base_coin ++ e.quote_coin ≠ x.base_coin ++ x.quote_coin := by
        intro hx
        exact hd1 (by rw [← hx]; exact List.mem_cons_of_mem _ hmemdir)
      have hne2 : e.base_coin ++ e.quote_coin ≠ x.quote_coin ++ x.base_coin := by
        intro hx
        exact hd2 (hx ▸ hmemdir)
      have hne3 : e.quote_coin ++ e.base_coin ≠ x.base_coin ++ x.quote_coin := by
        intro hx
        exact hd1 (by rw [← hx]; exact List.mem_cons_of_mem _ hmemrev)
      have hne4 : e.quote_coin ++ e.base_coin ≠ x.quote_coin ++ x.base_coin := by
        intro hx
        exact hd2 (hx ▸ hmemrev)
      obtain ⟨ihs, ihb⟩ := ih hmem2 hrestnd
      have hb1 : (e.base_coin ++ e.quote_coin == x.quote_coin ++ x.base_coin) = false :=
        beq_eq_false_iff_ne.mpr hne2
      have hb2 : (e.base_coin ++ e.quote_coin == x.base_coin ++ x.quote_coin) = false :=
        beq_eq_false_iff_ne.mpr hne1
      have hb3 : (e.quote_coin ++ e.base_coin == x.quote_coin ++ x.base_coin) = false :=
        beq_eq_false_iff_ne.mpr hne4
      have hb4 : (e.quote_coin ++ e.base_coin == x.base_coin ++ x.quote_coin) = false :=
        beq_eq_false_iff_ne.mpr hne3
      constructor
      · simpa [entry_bindings, List.lookup, hb1, hb2] using ihs
      · simpa [entry_bindings, List.lookup, hb3, hb4] using ihb

/-- C6 (amended): routing is correct for an instrument provided its coin
names are uppercase (the lookup key uppercases its arguments while the
insertion key does not) and no two of the 2n inserted concatenation keys
coincide; under those conditions route(B,Q) = (S, Sell) and
route(Q,B) = (S, Buy).  Without key distinctness a later instrument with
a colliding concatenation overwrites the binding. -/
theorem symbol_map_routes (entries : List PrecisionEntry) (e : PrecisionEntry)
    (hmem : e ∈ entries)
    (hbase : uppercase e.base_coin = e.base_coin)
    (hquote : uppercase e.quote_coin = e.quote_coin)
    (hkeys : (entries.flatMap entry_keys).Nodup) :
    get_action_for_conversion (build_symbol_map entries) e.base_coin e.quote_coin =
      some (e.symbol, "Sell") ∧
    get_action_for_conversion (build_symbol_map entries) e.quote_coin e.base_coin =
      some (e.symbol, "Buy") := by
  have hrev : e ∈ entries.reverse := List.mem_reverse.mpr hmem
  have hperm : List.Perm (entries.reverse.flatMap entry_keys) (entries.flatMap entry_keys) :=
    (List.reverse_perm entries).flatMap_right entry_keys
  have hkeysrev : (entries.reverse.flatMap entry_keys).Nodup := hperm.nodup_iff.mpr hkeys
  obtain ⟨hs, hb⟩ := lookup_entry_block entries.reverse e hrev hkeysrev
  rw [get_action_for_conversion, get_action_for_conversion, build_symbol_map_eq,
    hbase, hquote]
  exact ⟨hs, hb⟩

/-- Two instruments whose base++quote concatenations coincide:
"A" ++ "BC" = "AB" ++ "C" = "ABC". -/
def colliding_entries : List PrecisionEntry :=
  [{ symbol := "S1", base_coin := "A", quote_coin := "BC" },
   { symbol := "S2", base_coin := "AB", quote_coin := "C" }]

/-- C6 counterexample: with the two colliding instruments above, the
route for the first instrument's conversion A -> BC returns the second
instrument's symbol: the entry keyed "ABC" was clobbered by the later
insert, so the claimed lookup law fails for arbitrary instrument sets. -/
theorem symbol_map_clobbered_on_collision :
    get_action_for_conversion (build_symbol_map colliding_entries) "A" "BC" =
      some ("S2", "Sell") ∧
    get_action_for_conversion (build_symbol_map colliding_entries) "A" "BC" ≠
      some ("S1", "Sell") := by
  refine ⟨by decide, by decide⟩

/-- Two honest instruments with collision-free keys. -/
def routing_entries : List PrecisionEntry :=
  [{ symbol := "ETHUSDT", base_coin := "ETH", quote_coin := "USDT" },
   { symbol := "BTCUSDT", base_coin := "BTC", quote_coin := "USDT" }]

theorem symbol_map_routes_witness :
    ({ symbol := "ETHUSDT", base_coin := "ETH", quote_coin := "USDT" } : PrecisionEntry)
        ∈ routing_entries ∧
    (get_action_for_conversion (build_symbol_map routing_entries) "ETH" "USDT" =
        some ("ETHUSDT", "Sell") ∧
      get_action_for_conversion (build_symbol_map routing_entries) "USDT" "ETH" =
        some ("ETHUSDT", "Buy")) :=
  ⟨by decide,
   symbol_map_routes routing_entries
     { symbol := "ETHUSDT", base_coin := "ETH", quote_coin := "USDT" }
     (by decide) (by decide) (by decide) (by decide)⟩

/-- The result of one quantity formatting: the number of fractional
digits the produced string shows and the exact numeric value it denotes.
Rust format!("{:.d}", x) prints exactly d fractional digits, and the
value is truncated to d decimals first, so the pair determines the
string. -/
structure FormattedQty where
  decimals : ℕ
  value : ℚ
deriving Repr, DecidableEq

/-- Truncation to d decimals: `(x * 10^d).floor() / 10^d`
(precision.rs lines 284-285). -/
def trunc_to (d : ℕ) (x : ℚ) : ℚ := ⌊x * 10 ^ d⌋ / 10 ^ d

/-- `precision.rs format_quantity_with_retry` (lines 265-307), for a
symbol with known precision info (qty_precision p).  max_decimals is
`(6 - retry_count).max(0)` — Nat subtraction here; for retry_count > 3
the quantity is first shrunk by 0.1 percent per retry step beyond 3; the
used decimal count is the smaller of max_decimals and the symbol
precision, and the quantity is truncated, never rounded up. -/
def format_quantity_with_retry (qty_precision : ℕ) (quantity : ℚ) (retry_count : ℕ) :
    FormattedQty :=
  let max_decimals := 6 - retry_count
  let adjusted_quantity :=
    if 3 < retry_count then quantity * (1 - ((retry_count : ℚ) - 3) * (1/1000))
    else quantity
  let actual_decimals := min max_decimals qty_precision
  { decimals := actual_decimals, value := trunc_to actual_decimals adjusted_quantity }

theorem trunc_to_le (d : ℕ) (x : ℚ) : trunc_to d x ≤ x := by
  unfold trunc_to
  have hf : (0 : ℚ) < 10 ^ d := by positivity
  rw [div_le_iff₀ hf]
  exact Int.floor_le (x * 10 ^ d)

/-- C7: formatting a non-negative quantity for a symbol with known
precision p at retry r produces a string with exactly min(6 - r, p)
fractional digits (Nat subtraction: 6 - r saturates at 0) whose numeric
value never exceeds the input; for r > 3 the value is the truncation of
the input shrunk by 0.1 percent per retry step beyond 3. -/
theorem format_quantity_spec (p : ℕ) (x : ℚ) (r : ℕ) (hx : 0 ≤ x) :
    (format_quantity_with_retry p x r).decimals = min (6 - r) p ∧
    (format_quantity_with_retry p x r).value ≤ x ∧
    (3 < r →
      (format_quantity_with_retry p x r).value =
        trunc_to (min (6 - r) p) (x * (1 - ((r : ℚ) - 3) * (1/1000)))) := by
  refine ⟨rfl, ?_, ?_⟩
  · unfold format_quantity_with_retry
    by_cases hr : 3 < r
    · rw [if_pos hr]
      refine le_trans (trunc_to_le _ _) ?_
      have hfac : 1 - ((r : ℚ) - 3) * (1/1000) ≤ 1 := by
        have h1 : (1 : ℚ) ≤ ((r : ℚ) - 3) := by
          have : (4 : ℚ) ≤ (r : ℚ) := by exact_mod_cast hr
          linarith
        nlinarith
      exact mul_le_of_le_one_right hx hfac
    · rw [if_neg hr]
      exact trunc_to_le _ x
  · intro hr
    unfold format_quantity_with_retry
    rw [if_pos hr]

theorem format_quantity_spec_witness :
    (0 : ℚ) ≤ 123456789/1000000000 ∧
    ((format_quantity_with_retry 4 (123456789/1000000000) 0).decimals = min (6 - 0) 4 ∧
      (format_quantity_with_retry 4 (123456789/1000000000) 0).value ≤ 123456789/1000000000 ∧
      (3 < 0 →
        (format_quantity_with_retry 4 (123456789/1000000000) 0).value =
          trunc_to (min (6 - 0) 4) ((123456789/1000000000) * (1 - ((0 : ℚ) - 3) * (1/1000))))) ∧
    (format_quantity_with_retry 4 (123456789/1000000000) 0).value = 617/5000 :=
  ⟨by norm_num,
   format_quantity_spec 4 (123456789/1000000000) 0 (by norm_num),
   by norm_num [format_quantity_with_retry, trunc_to]⟩
